import Mathlib

/-
Shallow embedding of src/tools/runfiles/runfiles.rs (the Bazel runfiles
lookup library for Rust binaries).

Modelling conventions:
- Rust `String`/`Path`/`PathBuf` values are Lean `String`s.  The `Path`
  operations the code relies on (`is_absolute`, `components`, `join`,
  `parent`, `file_name`, `with_file_name`) are embedded below; `PathBuf`
  equality and hashing in `HashMap<PathBuf, _>` are component-wise, which
  `pathEq`/`mapGetLast` reproduce.
- `HashMap` built by `collect()` from an iterator keeps the last pair for a
  duplicated key, so tables are kept as association lists in file order and
  lookups take the last matching entry.
- The process environment is an association list, the filesystem is a record
  of query functions, and fallible or panicking Rust paths are explicit
  result constructors (`err` for `io::Result::Err`, `panicked` for panics).
-/

/-- Splits a character list at every occurrence of `sep`, keeping empty
pieces, as Rust `str::split` does ( `split` of `""` is `[""]` ). -/
def splitCharAux (sep : Char) : List Char → List (List Char)
  | [] => [[]]
  | c :: cs =>
    let rest := splitCharAux sep cs
    if c == sep then [] :: rest
    else (c :: rest.headD []) :: rest.tail

/-- String version of `splitCharAux`: Rust `str::split(sep)` collected. -/
def splitChar (sep : Char) (s : String) : List String :=
  (splitCharAux sep s.data).map (fun l => ⟨l⟩)

/-- Joins pieces with a separator; inverse of splitting on that separator.
Mirrors how a Rust `&str` that still contains separators reads back. -/
def joinWith (sep : String) : List String → String
  | [] => ""
  | [x] => x
  | x :: xs => x ++ sep ++ joinWith sep xs

theorem splitCharAux_ne_nil (sep : Char) (l : List Char) :
    splitCharAux sep l ≠ [] := by
  cases l with
  | nil => simp [splitCharAux]
  | cons c cs =>
    simp only [splitCharAux]
    by_cases h : c == sep <;> simp [h]

/-- Rust `Path::is_absolute` on Unix: the path begins with a separator. -/
def isAbsolute (s : String) : Bool := s.data.head? == some '/'

/-- True when the raw path string ends in a separator (used by the
`PathBuf::push`, hence `Path::join`, embedding). -/
def endsWithSlash (s : String) : Bool := s.data.getLast? == some '/'

/-- Rust `Path::join` / `PathBuf::push`: an absolute right operand replaces
the buffer; otherwise a separator is inserted unless one is already there
or the buffer is empty. -/
def pathJoin (a b : String) : String :=
  if isAbsolute b then b
  else if a = "" then b
  else if endsWithSlash a then a ++ b
  else a ++ "/" ++ b

/-- The normal/`CurDir`/`ParentDir` components of a path, after the
normalization Rust `Path::components` performs: empty pieces (repeated or
trailing separators) are dropped, and `.` is dropped except as the leading
component of a relative path.  The root of an absolute path is tracked
separately (see `pathComps`). -/
def relComponents (s : String) : List String :=
  match splitChar '/' s with
  | [] => []
  | first :: rest =>
    let restC := rest.filter (fun x => x ≠ "" && x ≠ ".")
    if first = "" then restC
    else if first = "." then "." :: restC
    else first :: restC

/-- The pair Rust `Path` equality and hashing compare: whether the path has
a root, and its normalized component list. -/
def pathComps (s : String) : Bool × List String := (isAbsolute s, relComponents s)

/-- Component-wise path equality, as Rust compares two `Path` values. -/
def pathEq (s t : String) : Bool := pathComps s == pathComps t

/-- Lookup in a `HashMap<PathBuf, PathBuf>` built from an association list
by `collect()`: the last inserted binding for a (component-wise equal) key
wins. -/
def mapGetLast (table : List (String × String)) (k : String) : Option String :=
  ((table.filter (fun e => pathEq e.1 k)).getLast?).map (fun e => e.2)

/-- Lookup in a `HashMap<String, String>` built by `collect()`: plain string
keys, last binding for a duplicated key wins. -/
def strMapGet (m : List (String × String)) (k : String) : Option String :=
  ((m.filter (fun e => e.1 == k)).getLast?).map (fun e => e.2)

/-- Rust `str::lines`: split on a newline, drop one trailing empty piece
(from a trailing newline), and strip one trailing carriage return per line. -/
def stripCR (l : String) : String :=
  if l.data.getLast? == some '\r' then ⟨l.data.dropLast⟩ else l

/-- Rust `str::lines` collected into a list. -/
def rustLines (s : String) : List String :=
  let parts := splitChar '\n' s
  (if parts.getLast? = some "" then parts.dropLast else parts).map stripCR

/-- `EXTERNAL_GENERATED_FILE_REGEX` = `^bazel-out[/][^/]+/bin/external/([^/]+)/`
applied to the split-on-separator pieces of the haystack.  The regex is
anchored at the start of the haystack, each `[^/]+` is exactly one nonempty
piece, and the trailing `/` demands one more piece after the capture. -/
def genCaptureList : List String → Option String
  | p0 :: p1 :: p2 :: p3 :: p4 :: _ :: _ =>
    if p0 == "bazel-out" && p1 != "" && p2 == "bin" && p3 == "external" && p4 != ""
    then some p4 else none
  | _ => none

/-- `EXTERNAL_FILE_REGEX` = `^external/([^/]+)/` on the split pieces. -/
def fileCaptureList : List String → Option String
  | p0 :: p1 :: _ :: _ =>
    if p0 == "external" && p1 != "" then some p1 else none
  | _ => none

/-- Capture of `EXTERNAL_GENERATED_FILE_REGEX` on a path string. -/
def externalGeneratedCapture (s : String) : Option String :=
  genCaptureList (splitChar '/' s)

/-- Capture of `EXTERNAL_FILE_REGEX` on a path string. -/
def externalFileCapture (s : String) : Option String :=
  fileCaptureList (splitChar '/' s)

/-- The runtime mode: `Mode` from the source. -/
inductive Mode where
  | directoryBased (root : String)
  | manifestBased (table : List (String × String))
deriving DecidableEq

/-- The `Runfiles` struct of the source. -/
structure Runfiles where
  mode : Mode
  repo_mapping : List (String × String)
  source_repository : String
deriving DecidableEq

/-- The source function `get_source_repository`, as a function of the current
executable path (`std::env::current_exe`, assumed to resolve to a valid
UTF-8 string): first regex capture wins, else the second, else the empty
string. -/
def Runfiles.get_source_repository (exePath : String) : String :=
  match externalGeneratedCapture exePath with
  | some repo => repo
  | none =>
    match externalFileCapture exePath with
    | some repo => repo
    | none => ""

/-- Result of `rlocation`: a returned path, the panic on a manifest miss
(which formats the original requested path into its message), or the panic
from unwrapping the first component of an empty relative path. -/
inductive RlocResult where
  | ok (p : String)
  | panicMissing (reported : String)
  | panicEmptyPath
deriving DecidableEq

/-- The `final_path` a relative lookup resolves against the active mode:
the first component is the apparent repository; when the key
`source_repository ++ "," ++ root` is in the repo-mapping table, the path
becomes mapped-value joined with the remaining components, otherwise the
original path is kept unchanged. -/
def finalResolvedPath (repoMapping : List (String × String)) (src path : String) : String :=
  match relComponents path with
  | [] => path
  | root :: rest =>
    let remainder := joinWith "/" rest
    match (strMapGet repoMapping (src ++ "," ++ root)).map
        (fun v => pathJoin (pathJoin "" v) remainder) with
    | some mapped => mapped
    | none => path

/-- The source method `rlocation`: absolute inputs are returned unchanged;
an empty relative input panics when its first component is unwrapped;
otherwise the (possibly remapped) final path is joined to the root in
directory mode or looked up exactly in the manifest table, panicking with
the original requested path on a miss. -/
def Runfiles.rlocation (r : Runfiles) (path : String) : RlocResult :=
  if isAbsolute path then RlocResult.ok path
  else
    match relComponents path with
    | [] => RlocResult.panicEmptyPath
    | _ :: _ =>
      let finalPath := finalResolvedPath r.repo_mapping r.source_repository path
      match r.mode with
      | Mode.directoryBased dir => RlocResult.ok (pathJoin dir finalPath)
      | Mode.manifestBased table =>
        match mapGetLast table finalPath with
        | some phys => RlocResult.ok phys
        | none => RlocResult.panicMissing path

/-- Runs a fallible parser over every element, stopping at the first
failure: the `Option`-monad `mapM` used by the two file loaders (a `none`
models the panic inside the corresponding Rust closure). -/
def collectEntries {α β : Type} (f : α → Option β) : List α → Option (List β)
  | [] => some []
  | l :: ls =>
    match f l with
    | none => none
    | some e =>
      match collectEntries f ls with
      | none => none
      | some t => some (e :: t)

/-- One manifest line: Rust `str::split_once(' ')`, splitting at the first
space; a line without a space (the `expect` in `create_manifest_based`)
is a panic, modelled as `none`. -/
def splitOnceSpace (line : String) : Option (String × String) :=
  match splitChar ' ' line with
  | a :: b :: rest => some (a, joinWith " " (b :: rest))
  | _ => none

/-- Manifest parsing in `create_manifest_based`: every line of the file is
split at its first space. -/
def loadManifest (content : String) : Option (List (String × String)) :=
  collectEntries splitOnceSpace (rustLines content)

/-- One repo-mapping line: `line.splitn(3, ',')` followed by indexing
`triplet[0]`, `triplet[1]`, `triplet[2]` — fewer than three pieces panics
(`none`); the key is the first two fields joined by a comma, the value is
the rest of the line. -/
def parse_repo_mapping_line (line : String) : Option (String × String) :=
  match splitChar ',' line with
  | a :: b :: c :: rest => some (a ++ "," ++ b, joinWith "," (c :: rest))
  | _ => none

/-- Repo-mapping parsing in `create`: every line of the `_repo_mapping`
file is split into its three comma-separated fields. -/
def loadRepoMapping (content : String) : Option (List (String × String)) :=
  collectEntries parse_repo_mapping_line (rustLines content)

/-- The process environment (`std::env::var_os` lookups). -/
abbrev EnvMap := List (String × String)

/-- `std::env::var_os(k)`. -/
def envGet (e : EnvMap) (k : String) : Option String := e.lookup k

/-- The filesystem queries the library performs: `Path::is_dir`,
`Path::exists`, `fs::read_to_string` (a `none` is an `io::Result` error),
and `fs::read_link` (a `some` means the path is a symlink with that
target, which also answers `symlink_metadata(..).is_symlink()`;
`fileExists` answers whether `symlink_metadata` succeeds). -/
structure Fs where
  isDir : String → Bool
  fileExists : String → Bool
  readFile : String → Option String
  symlinkTarget : String → Option String

def RUNFILES_DIR_ENV_VAR : String := "RUNFILES_DIR"
def MANIFEST_FILE_ENV_VAR : String := "RUNFILES_MANIFEST_FILE"
def MANIFEST_ONLY_ENV_VAR : String := "RUNFILES_MANIFEST_ONLY"
def TEST_SRCDIR_ENV_VAR : String := "TEST_SRCDIR"

/-- Rust `Path::file_name`: the last normal component. -/
def fileName (s : String) : Option String :=
  match (relComponents s).getLast? with
  | some c => if c = "." || c = ".." then none else some c
  | none => none

/-- Rust `Path::parent`: the path minus its last component; `none` for a
root or empty path. -/
def parentPath (s : String) : Option String :=
  match relComponents s with
  | [] => none
  | cs =>
    let cs2 := cs.dropLast
    if isAbsolute s then some ("/" ++ joinWith "/" cs2)
    else if cs2 = [] then some ""
    else some (joinWith "/" cs2)

/-- Rust `Path::with_file_name`: drop the file name when there is one, then
push the new name. -/
def withFileName (s name : String) : String :=
  match fileName s with
  | some _ => pathJoin ((parentPath s).getD "") name
  | none => pathJoin s name

/-- The ancestor walk inside `find_runfiles_dir`: the first ancestor
directory whose own name ends with `.runfiles`.  The fuel bounds the parent
chain, which shrinks by one component per step. -/
def findRunfilesAncestor : Nat → String → Option String
  | 0, _ => none
  | n + 1, p =>
    match parentPath p with
    | none => none
    | some anc =>
      if ((fileName anc).map (fun f => f.endsWith ".runfiles")).getD false
      then some anc
      else findRunfilesAncestor n anc

/-- Result of `find_runfiles_dir`: a directory, an `io::Result` error, a
panic (the entry assertion or the `file_name` unwrap), or divergence of the
symlink-following loop (a symlink cycle; `diverged` stands for the loop
never terminating once the fuel is spent). -/
inductive FindRes where
  | ok (d : String)
  | err (msg : String)
  | panicked
  | diverged
deriving DecidableEq

/-- The discovery loop of `find_runfiles_dir`, starting from `argv[0]`:
look for a sibling `<basename>.runfiles` directory, then for a `*.runfiles`
ancestor, then follow one symlink level and repeat; a non-symlink ends the
loop with the not-found error. -/
def runfilesSearchLoop (fs : Fs) (cwd : String) : Nat → String → FindRes
  | 0, _ => FindRes.diverged
  | n + 1, binaryPath =>
    match fileName binaryPath with
    | none => FindRes.panicked
    | some name =>
      let runfilesPath := withFileName binaryPath (name ++ ".runfiles")
      if fs.isDir runfilesPath then FindRes.ok runfilesPath
      else
        match findRunfilesAncestor (binaryPath.length + 2) binaryPath with
        | some anc => FindRes.ok anc
        | none =>
          if !fs.fileExists binaryPath then FindRes.err "io error"
          else
            match fs.symlinkTarget binaryPath with
            | none => FindRes.err "failed to find .runfiles directory"
            | some target =>
              let next :=
                if isAbsolute target then target
                else pathJoin (pathJoin cwd ((parentPath binaryPath).getD "")) target
              runfilesSearchLoop fs cwd n next

/-- The source function `find_runfiles_dir`: assert the manifest-only flag
is not set to 1, then try the `RUNFILES_DIR` override, the `TEST_SRCDIR`
override, and finally the discovery loop from `argv[0]` (whose absence is
the `expect` panic). -/
def find_runfiles_dir (env : EnvMap) (fs : Fs) (argv0 : Option String)
    (cwd : String) (fuel : Nat) : FindRes :=
  if ((envGet env MANIFEST_ONLY_ENV_VAR).getD "0") = "1" then FindRes.panicked
  else
    let fromDir : Option String :=
      match envGet env RUNFILES_DIR_ENV_VAR with
      | some d => if fs.isDir d then some d else none
      | none => none
    match fromDir with
    | some d => FindRes.ok d
    | none =>
      let fromSrc : Option String :=
        match envGet env TEST_SRCDIR_ENV_VAR with
        | some t => if fs.isDir t then some t else none
        | none => none
      match fromSrc with
      | some t => FindRes.ok t
      | none =>
        match argv0 with
        | none => FindRes.panicked
        | some a0 => runfilesSearchLoop fs cwd fuel a0

/-- The source function `is_manifest_only`: `RUNFILES_MANIFEST_ONLY` equals
the string 1. -/
def is_manifest_only (env : EnvMap) : Bool :=
  envGet env MANIFEST_ONLY_ENV_VAR == some "1"

/-- Result of `find_manifest_path`. -/
inductive PathRes where
  | ok (p : String)
  | err (msg : String)
  | panicked
deriving DecidableEq

/-- The source function `find_manifest_path`: assert the manifest-only flag
is present and equal to 1 (both failures panic), then require the
`RUNFILES_MANIFEST_FILE` override (its absence is an `io::Result` error). -/
def find_manifest_path (env : EnvMap) : PathRes :=
  match envGet env MANIFEST_ONLY_ENV_VAR with
  | none => PathRes.panicked
  | some v =>
    if v = "1" then
      match envGet env MANIFEST_FILE_ENV_VAR with
      | some p => PathRes.ok p
      | none => PathRes.err "RUNFILES_MANIFEST_ONLY was set to 1, but RUNFILES_MANIFEST_FILE was not set. Did Bazel change?"
    else PathRes.panicked

/-- Result of construction. -/
inductive CreateRes where
  | ok (r : Runfiles)
  | err (msg : String)
  | panicked
  | diverged
deriving DecidableEq

/-- The source method `create_manifest_based`: find the manifest path, read
it (read failure propagates as an error), and split every line at its first
space (a line without one panics). -/
def Runfiles.create_manifest_based (env : EnvMap) (fs : Fs) (exePath : String) : CreateRes :=
  match find_manifest_path env with
  | PathRes.panicked => CreateRes.panicked
  | PathRes.err m => CreateRes.err m
  | PathRes.ok manifestPath =>
    match fs.readFile manifestPath with
    | none => CreateRes.err "failed to read manifest file"
    | some content =>
      match loadManifest content with
      | none => CreateRes.panicked
      | some table =>
        CreateRes.ok ⟨Mode.manifestBased table, [], Runfiles.get_source_repository exePath⟩

/-- The source method `create_directory_based`. -/
def Runfiles.create_directory_based (env : EnvMap) (fs : Fs) (argv0 : Option String)
    (cwd : String) (fuel : Nat) (exePath : String) : CreateRes :=
  match find_runfiles_dir env fs argv0 cwd fuel with
  | FindRes.ok dir =>
    CreateRes.ok ⟨Mode.directoryBased dir, [], Runfiles.get_source_repository exePath⟩
  | FindRes.err m => CreateRes.err m
  | FindRes.panicked => CreateRes.panicked
  | FindRes.diverged => CreateRes.diverged

/-- The `bootstrap_runfiles` value inside `create`: manifest based when the
manifest-only flag is set, directory based otherwise, with an empty
repo-mapping table. -/
def Runfiles.create_bootstrap (env : EnvMap) (fs : Fs) (argv0 : Option String)
    (cwd : String) (fuel : Nat) (exePath : String) : CreateRes :=
  if is_manifest_only env then Runfiles.create_manifest_based env fs exePath
  else Runfiles.create_directory_based env fs argv0 cwd fuel exePath

/-- The source method `create`: build the bootstrap instance, resolve the
reserved name through its own `rlocation` (whose panics abort `create`),
and when the resolved file exists read and parse it (a read failure or a
line with fewer than three fields panics); when it does not exist the
final instance keeps an empty repo-mapping table. -/
def Runfiles.create (env : EnvMap) (fs : Fs) (argv0 : Option String)
    (cwd : String) (fuel : Nat) (exePath : String) : CreateRes :=
  match Runfiles.create_bootstrap env fs argv0 cwd fuel exePath with
  | CreateRes.ok r =>
    match r.rlocation "_repo_mapping" with
    | RlocResult.ok repoMappingFile =>
      if fs.fileExists repoMappingFile then
        match fs.readFile repoMappingFile with
        | none => CreateRes.panicked
        | some content =>
          match loadRepoMapping content with
          | none => CreateRes.panicked
          | some mapping => CreateRes.ok ⟨r.mode, mapping, r.source_repository⟩
      else CreateRes.ok ⟨r.mode, [], r.source_repository⟩
    | RlocResult.panicMissing _ => CreateRes.panicked
    | RlocResult.panicEmptyPath => CreateRes.panicked
  | other => other

/-- An absolute path splits into an empty first piece, because it begins
with a separator. -/
theorem splitChar_absolute (s : String) (h : isAbsolute s = true) :
    ∃ t, splitChar '/' s = "" :: t := by
  cases s with
  | mk data =>
    cases data with
    | nil => simp [isAbsolute] at h
    | cons c cs =>
      simp [isAbsolute] at h
      subst h
      refine ⟨(splitCharAux '/' cs).map (fun l => ⟨l⟩), ?_⟩
      simp [splitChar, splitCharAux]

/-- The anchored build-output pattern never matches a haystack whose first
split piece is empty. -/
theorem genCaptureList_empty_head : ∀ t : List String, genCaptureList ("" :: t) = none
  | [] => rfl
  | [_] => rfl
  | [_, _] => rfl
  | [_, _, _] => rfl
  | [_, _, _, _] => rfl
  | _ :: _ :: _ :: _ :: _ :: _ => rfl

/-- The anchored source-tree pattern never matches a haystack whose first
split piece is empty. -/
theorem fileCaptureList_empty_head : ∀ t : List String, fileCaptureList ("" :: t) = none
  | [] => rfl
  | [_] => rfl
  | _ :: _ :: _ => rfl

/-- When every element parses, `collectEntries` succeeds and the output is
related element-wise to the input. -/
theorem collectEntries_forall₂ {α β : Type} (f : α → Option β) (R : α → β → Prop)
    (ls : List α) (h : ∀ l ∈ ls, ∃ e, f l = some e ∧ R l e) :
    ∃ t, collectEntries f ls = some t ∧ List.Forall₂ R ls t := by
  induction ls with
  | nil => exact ⟨[], rfl, List.Forall₂.nil⟩
  | cons x xs ih =>
    obtain ⟨e, hfe, hRe⟩ := h x (by simp)
    obtain ⟨t, ht, hRt⟩ := ih (fun l hl => h l (by simp [hl]))
    exact ⟨e :: t, by simp [collectEntries, hfe, ht], List.Forall₂.cons hRe hRt⟩

/-- A relative, nonempty lookup in directory mode is the join of the root
with the final (possibly remapped) path. -/
theorem rlocation_dir_eq (dir : String) (rm : List (String × String)) (src p : String)
    (habs : isAbsolute p = false) (hne : relComponents p ≠ []) :
    Runfiles.rlocation ⟨Mode.directoryBased dir, rm, src⟩ p =
      RlocResult.ok (pathJoin dir (finalResolvedPath rm src p)) := by
  obtain ⟨c, cs, hcc⟩ := List.exists_cons_of_ne_nil hne
  simp [Runfiles.rlocation, habs, hcc]

/-- A relative, nonempty lookup in manifest mode returns the table entry of
the final (possibly remapped) path when there is one. -/
theorem rlocation_manifest_hit (table rm : List (String × String)) (src p P : String)
    (habs : isAbsolute p = false) (hne : relComponents p ≠ [])
    (hhit : mapGetLast table (finalResolvedPath rm src p) = some P) :
    Runfiles.rlocation ⟨Mode.manifestBased table, rm, src⟩ p = RlocResult.ok P := by
  obtain ⟨c, cs, hcc⟩ := List.exists_cons_of_ne_nil hne
  simp [Runfiles.rlocation, habs, hcc, hhit]

/-- Claim C2 (counterexample): an absolute executable path that contains a
bazel-out cfg bin external repoName segment does not yield that repoName —
the anchored pattern cannot match past the leading separator, so the
derived source repository is the empty string. -/
theorem c2_counterexample :
    Runfiles.get_source_repository
        "/home/user/bazel-out/k8-fastbuild/bin/external/myrepo/bin/tool" = "" ∧
    Runfiles.get_source_repository
        "/home/user/bazel-out/k8-fastbuild/bin/external/myrepo/bin/tool" ≠ "myrepo" := by
  decide

/-- Claim C2 (amended): the derived source repository equals the capture of
the first matching pattern, tried in order, and is the empty string when
neither matches; both patterns are anchored at the start of the path, so an
absolute executable path (which begins with a separator) matches neither
and always yields the empty string. -/
theorem c2_amended_anchored_patterns (s repo : String) :
    (isAbsolute s = true → Runfiles.get_source_repository s = "") ∧
    (externalGeneratedCapture s = some repo → Runfiles.get_source_repository s = repo) ∧
    (externalGeneratedCapture s = none → externalFileCapture s = some repo →
      Runfiles.get_source_repository s = repo) ∧
    (externalGeneratedCapture s = none → externalFileCapture s = none →
      Runfiles.get_source_repository s = "") := by
  refine ⟨?_, ?_, ?_, ?_⟩
  · intro h
    obtain ⟨t, ht⟩ := splitChar_absolute s h
    simp [Runfiles.get_source_repository, externalGeneratedCapture, externalFileCapture, ht,
      genCaptureList_empty_head, fileCaptureList_empty_head]
  · intro h
    simp [Runfiles.get_source_repository, h]
  · intro h1 h2
    simp [Runfiles.get_source_repository, h1, h2]
  · intro h1 h2
    simp [Runfiles.get_source_repository, h1, h2]

/-- Witness for the amended C2 at concrete inputs: an absolute path yields
the empty string; a path starting with the build-output form yields the
captured repository name. -/
theorem c2_amended_witness :
    (isAbsolute "/home/user/bazel-out/k8-fastbuild/bin/external/myrepo/bin/tool" = true ∧
      Runfiles.get_source_repository
        "/home/user/bazel-out/k8-fastbuild/bin/external/myrepo/bin/tool" = "") ∧
    (externalGeneratedCapture "bazel-out/k8-fastbuild/bin/external/myrepo/bin/tool"
        = some "myrepo" ∧
      Runfiles.get_source_repository "bazel-out/k8-fastbuild/bin/external/myrepo/bin/tool"
        = "myrepo") :=
  ⟨⟨by decide, (c2_amended_anchored_patterns _ "myrepo").1 (by decide)⟩,
   ⟨by decide, (c2_amended_anchored_patterns _ _).2.1 (by decide)⟩⟩

/-- Claim C4: in manifest mode, a relative, nonempty input whose (possibly
remapped) final path has no manifest entry panics, and the panic reports
the original requested logical path. -/
theorem c4_manifest_miss_reports_original (table rm : List (String × String)) (src p : String)
    (habs : isAbsolute p = false) (hne : relComponents p ≠ [])
    (hmiss : mapGetLast table (finalResolvedPath rm src p) = none) :
    Runfiles.rlocation ⟨Mode.manifestBased table, rm, src⟩ p = RlocResult.panicMissing p := by
  obtain ⟨c, cs, hcc⟩ := List.exists_cons_of_ne_nil hne
  simp [Runfiles.rlocation, habs, hcc, hmiss]

/-- Witness for C4: the requested path is remapped before the lookup, the
lookup misses, and the panic reports the original requested path rather
than the remapped one. -/
theorem c4_witness :
    isAbsolute "dep/f" = false ∧
    relComponents "dep/f" ≠ [] ∧
    mapGetLast [("x", "y")] (finalResolvedPath [("main,dep", "canon")] "main" "dep/f") = none ∧
    Runfiles.rlocation ⟨Mode.manifestBased [("x", "y")], [("main,dep", "canon")], "main"⟩ "dep/f"
      = RlocResult.panicMissing "dep/f" :=
  ⟨by decide, by decide, by decide,
   c4_manifest_miss_reports_original _ _ _ _ (by decide) (by decide) (by decide)⟩

/-- Claim C5: for every absolute input path, in both modes, rlocation
returns the input unchanged, with no remapping and no manifest lookup. -/
theorem c5_rlocation_absolute_identity (r : Runfiles) (p : String)
    (h : isAbsolute p = true) : r.rlocation p = RlocResult.ok p := by
  simp [Runfiles.rlocation, h]

/-- Witness for C5 in both modes at concrete absolute inputs. -/
theorem c5_witness :
    (isAbsolute "/abs/file" = true ∧
      Runfiles.rlocation ⟨Mode.directoryBased "/rf", [], ""⟩ "/abs/file"
        = RlocResult.ok "/abs/file") ∧
    (isAbsolute "/x" = true ∧
      Runfiles.rlocation ⟨Mode.manifestBased [("a", "b")], [("m,a", "c")], "m"⟩ "/x"
        = RlocResult.ok "/x") :=
  ⟨⟨by decide, c5_rlocation_absolute_identity _ _ (by decide)⟩,
   ⟨by decide, c5_rlocation_absolute_identity _ _ (by decide)⟩⟩

/-- Claim C10: for the empty relative input path, extracting the leading
repository component unwraps `none` and rlocation panics, in every mode and
for every table state. -/
theorem c10_rlocation_empty_path (r : Runfiles) :
    r.rlocation "" = RlocResult.panicEmptyPath := rfl

/-- Claim C3 (counterexample): the round-trip fails for an absolute logical
path in the manifest: the line gives the entry, yet rlocation returns the
input itself instead of the mapped physical path. -/
theorem c3_counterexample :
    loadManifest "/a b" = some [("/a", "b")] ∧
    Runfiles.rlocation ⟨Mode.manifestBased [("/a", "b")], [], ""⟩ "/a" = RlocResult.ok "/a" ∧
    RlocResult.ok "/a" ≠ RlocResult.ok "b" := by
  decide

/-- Claim C3 (amended): the round-trip holds for every effective manifest
entry with a relative, nonempty logical path whose leading component has no
repo-mapping entry for the source repository — given manifest entry (L, P)
that is the last line whose logical path equals L component-wise,
rlocation of L returns exactly P. -/
theorem c3_amended_roundtrip (content : String) (table rm : List (String × String))
    (src L P : String)
    (_hload : loadManifest content = some table)
    (habs : isAbsolute L = false)
    (root : String) (rest : List String)
    (hcomp : relComponents L = root :: rest)
    (hnomap : strMapGet rm (src ++ "," ++ root) = none)
    (hget : mapGetLast table L = some P) :
    Runfiles.rlocation ⟨Mode.manifestBased table, rm, src⟩ L = RlocResult.ok P := by
  have hfin : finalResolvedPath rm src L = L := by
    simp [finalResolvedPath, hcomp, hnomap]
  simp [Runfiles.rlocation, habs, hcomp, hfin, hget]

/-- Witness for the amended C3 at the spec scenario: manifest content
splits into the entry, and rlocation of the logical path gives back the
physical path. -/
theorem c3_amended_witness :
    loadManifest "a/b c/d" = some [("a/b", "c/d")] ∧
    isAbsolute "a/b" = false ∧
    relComponents "a/b" = ["a", "b"] ∧
    strMapGet [] ("" ++ "," ++ "a") = none ∧
    mapGetLast [("a/b", "c/d")] "a/b" = some "c/d" ∧
    Runfiles.rlocation ⟨Mode.manifestBased [("a/b", "c/d")], [], ""⟩ "a/b"
      = RlocResult.ok "c/d" :=
  ⟨by decide, by decide, by decide, by decide, by decide,
   c3_amended_roundtrip "a/b c/d" _ _ _ _ _ (by decide) (by decide) "a" ["b"]
     (by decide) (by decide) (by decide)⟩

/-- Claim C6: when every repo-mapping line has exactly three
comma-separated fields, loading succeeds and produces, line by line, the
entry whose key is the first two fields joined by a comma and whose value
is the third; and with the mapping of the spec scenario, rlocation of
dep/file.txt resolves exactly as the input canonical_dep~1.0/file.txt
would. -/
theorem c6_repo_mapping_load (content : String)
    (h3 : ∀ l ∈ rustLines content, (splitChar ',' l).length = 3) :
    (∃ table, loadRepoMapping content = some table ∧
      List.Forall₂ (fun l e => ∀ a b c, splitChar ',' l = [a, b, c] →
        e = (a ++ "," ++ b, c)) (rustLines content) table) ∧
    finalResolvedPath [("main,dep", "canonical_dep~1.0")] "main" "dep/file.txt"
      = "canonical_dep~1.0/file.txt" ∧
    (∀ root,
      Runfiles.rlocation
          ⟨Mode.directoryBased root, [("main,dep", "canonical_dep~1.0")], "main"⟩ "dep/file.txt"
        = Runfiles.rlocation
          ⟨Mode.directoryBased root, [("main,dep", "canonical_dep~1.0")], "main"⟩
          "canonical_dep~1.0/file.txt") ∧
    (∀ table P, mapGetLast table "canonical_dep~1.0/file.txt" = some P →
      Runfiles.rlocation
          ⟨Mode.manifestBased table, [("main,dep", "canonical_dep~1.0")], "main"⟩ "dep/file.txt"
        = RlocResult.ok P) := by
  refine ⟨?_, by decide, ?_, ?_⟩
  · apply collectEntries_forall₂
    intro l hl
    obtain ⟨a, b, c, habc⟩ := List.length_eq_three.mp (h3 l hl)
    refine ⟨(a ++ "," ++ b, c), ?_, ?_⟩
    · simp [parse_repo_mapping_line, habc, joinWith]
    · intro a2 b2 c2 h2
      rw [habc] at h2
      simp only [List.cons.injEq, and_true] at h2
      obtain ⟨rfl, rfl, rfl⟩ := h2
      rfl
  · intro root
    rw [rlocation_dir_eq _ _ _ _ (by decide) (by decide),
      rlocation_dir_eq _ _ _ _ (by decide) (by decide)]
    rw [show finalResolvedPath [("main,dep", "canonical_dep~1.0")] "main" "dep/file.txt"
        = finalResolvedPath [("main,dep", "canonical_dep~1.0")] "main"
          "canonical_dep~1.0/file.txt" from by decide]
  · intro table P hP
    apply rlocation_manifest_hit table _ "main" "dep/file.txt" P (by decide) (by decide)
    rw [show finalResolvedPath [("main,dep", "canonical_dep~1.0")] "main" "dep/file.txt"
        = "canonical_dep~1.0/file.txt" from by decide]
    exact hP

/-- Witness for C6 at the spec scenario content. -/
theorem c6_witness :
    (∀ l ∈ rustLines "main,dep,canonical_dep~1.0", (splitChar ',' l).length = 3) ∧
    ((∃ table, loadRepoMapping "main,dep,canonical_dep~1.0" = some table ∧
      List.Forall₂ (fun l e => ∀ a b c, splitChar ',' l = [a, b, c] →
        e = (a ++ "," ++ b, c)) (rustLines "main,dep,canonical_dep~1.0") table) ∧
    finalResolvedPath [("main,dep", "canonical_dep~1.0")] "main" "dep/file.txt"
      = "canonical_dep~1.0/file.txt" ∧
    (∀ root,
      Runfiles.rlocation
          ⟨Mode.directoryBased root, [("main,dep", "canonical_dep~1.0")], "main"⟩ "dep/file.txt"
        = Runfiles.rlocation
          ⟨Mode.directoryBased root, [("main,dep", "canonical_dep~1.0")], "main"⟩
          "canonical_dep~1.0/file.txt") ∧
    (∀ table P, mapGetLast table "canonical_dep~1.0/file.txt" = some P →
      Runfiles.rlocation
          ⟨Mode.manifestBased table, [("main,dep", "canonical_dep~1.0")], "main"⟩ "dep/file.txt"
        = RlocResult.ok P)) :=
  ⟨by decide, c6_repo_mapping_load "main,dep,canonical_dep~1.0" (by decide)⟩

/-- Claim C8 (counterexample): a manifest text whose non-empty lines each
contain a space can still fail to load — the loader processes every line,
and an interior empty line has no space, which is the fatal parse error. -/
theorem c8_counterexample :
    rustLines "a b\n\nc d" = ["a b", "", "c d"] ∧
    loadManifest "a b\n\nc d" = none := by
  decide

/-- Claim C8 (amended): manifest loading splits each line — empty lines
included — on the first space into a logical/physical pair whose physical
part may itself contain spaces, a line without a space is a fatal parse
error, and for every manifest text whose lines all contain a space, loading
succeeds and yields exactly those pairs. -/
theorem c8_amended_manifest_load (content : String)
    (h : ∀ l ∈ rustLines content, 2 ≤ (splitChar ' ' l).length) :
    ∃ t, loadManifest content = some t ∧
      List.Forall₂ (fun l e => ∀ a rest, splitChar ' ' l = a :: rest → rest ≠ [] →
        e = (a, joinWith " " rest)) (rustLines content) t := by
  apply collectEntries_forall₂
  intro l hl
  have hlen := h l hl
  obtain ⟨a, t1, ht1⟩ : ∃ a t1, splitChar ' ' l = a :: t1 := by
    cases hsp : splitChar ' ' l with
    | nil => rw [hsp] at hlen; simp at hlen
    | cons a t1 => exact ⟨a, t1, rfl⟩
  obtain ⟨b, t2, rfl⟩ : ∃ b t2, t1 = b :: t2 := by
    cases t1 with
    | nil => rw [ht1] at hlen; simp at hlen
    | cons b t2 => exact ⟨b, t2, rfl⟩
  refine ⟨(a, joinWith " " (b :: t2)), ?_, ?_⟩
  · simp [splitOnceSpace, ht1]
  · intro a2 rest2 hsp hne
    rw [ht1] at hsp
    simp only [List.cons.injEq] at hsp
    obtain ⟨rfl, rfl⟩ := hsp
    rfl

/-- Witness for the amended C8: a two-line manifest whose second physical
path contains a space loads into exactly those pairs. -/
theorem c8_amended_witness :
    (∀ l ∈ rustLines "a/b c/d\ne f g", 2 ≤ (splitChar ' ' l).length) ∧
    (∃ t, loadManifest "a/b c/d\ne f g" = some t ∧
      List.Forall₂ (fun l e => ∀ a rest, splitChar ' ' l = a :: rest → rest ≠ [] →
        e = (a, joinWith " " rest)) (rustLines "a/b c/d\ne f g") t) :=
  ⟨by decide, c8_amended_manifest_load "a/b c/d\ne f g" (by decide)⟩

/-- Claim C7: under the entry precondition (manifest-only flag not 1), the
runfiles-directory override wins whenever it names an existing directory —
in particular when the test-source directory also exists — and an override
that does not name an existing directory is passed over in favor of the
test-source directory. -/
theorem c7_override_precedence (env : EnvMap) (fs : Fs) (argv0 : Option String)
    (cwd : String) (fuel : Nat)
    (hmo : (envGet env MANIFEST_ONLY_ENV_VAR).getD "0" ≠ "1") :
    (∀ d, envGet env RUNFILES_DIR_ENV_VAR = some d → fs.isDir d = true →
      find_runfiles_dir env fs argv0 cwd fuel = FindRes.ok d) ∧
    (∀ d t, envGet env RUNFILES_DIR_ENV_VAR = some d → fs.isDir d = true →
      envGet env TEST_SRCDIR_ENV_VAR = some t → fs.isDir t = true →
      find_runfiles_dir env fs argv0 cwd fuel = FindRes.ok d) ∧
    (∀ d t, envGet env RUNFILES_DIR_ENV_VAR = some d → fs.isDir d = false →
      envGet env TEST_SRCDIR_ENV_VAR = some t → fs.isDir t = true →
      find_runfiles_dir env fs argv0 cwd fuel = FindRes.ok t) := by
  refine ⟨?_, ?_, ?_⟩
  · intro d hd hdir
    simp [find_runfiles_dir, hmo, hd, hdir]
  · intro d t hd hdir ht htdir
    simp [find_runfiles_dir, hmo, hd, hdir]
  · intro d t hd hdir ht htdir
    simp [find_runfiles_dir, hmo, hd, hdir, ht, htdir]

/-- Filesystem in which the two override directories exist. -/
def bothDirsFs : Fs :=
  ⟨fun d => d == "/rf" || d == "/ts", fun _ => false, fun _ => none, fun _ => none⟩

/-- Witness for C7: with both overrides naming existing directories the
runfiles-directory override wins, and with a dangling runfiles-directory
override the test-source directory is used. -/
theorem c7_witness :
    ((envGet [("RUNFILES_DIR", "/rf"), ("TEST_SRCDIR", "/ts")] MANIFEST_ONLY_ENV_VAR).getD "0"
        ≠ "1" ∧
      find_runfiles_dir [("RUNFILES_DIR", "/rf"), ("TEST_SRCDIR", "/ts")] bothDirsFs
        none "/" 0 = FindRes.ok "/rf") ∧
    find_runfiles_dir [("RUNFILES_DIR", "/gone"), ("TEST_SRCDIR", "/ts")] bothDirsFs
        none "/" 0 = FindRes.ok "/ts" :=
  ⟨⟨by decide,
    (c7_override_precedence _ bothDirsFs none "/" 0 (by decide)).1 "/rf"
      (by decide) (by decide)⟩,
   (c7_override_precedence _ bothDirsFs none "/" 0 (by decide)).2.2 "/gone" "/ts"
     (by decide) (by decide) (by decide) (by decide)⟩

/-- Claim C9: when RUNFILES_MANIFEST_ONLY is set to 1, the entry assertion
of find_runfiles_dir fails and the call panics instead of returning its
documented Result, whatever the rest of the environment and filesystem. -/
theorem c9_manifest_only_assert (env : EnvMap) (fs : Fs) (argv0 : Option String)
    (cwd : String) (fuel : Nat)
    (h : envGet env MANIFEST_ONLY_ENV_VAR = some "1") :
    find_runfiles_dir env fs argv0 cwd fuel = FindRes.panicked := by
  simp [find_runfiles_dir, h]

/-- Witness for C9: the panic happens even though the runfiles-directory
override names an existing directory. -/
theorem c9_witness :
    envGet [("RUNFILES_MANIFEST_ONLY", "1"), ("RUNFILES_DIR", "/rf")] MANIFEST_ONLY_ENV_VAR
      = some "1" ∧
    find_runfiles_dir [("RUNFILES_MANIFEST_ONLY", "1"), ("RUNFILES_DIR", "/rf")] bothDirsFs
      none "/" 0 = FindRes.panicked :=
  ⟨by decide, c9_manifest_only_assert _ bothDirsFs none "/" 0 (by decide)⟩

/-- Environment selecting manifest mode, with a manifest that has no entry
for the reserved name. -/
def manifestNoMappingEnv : EnvMap :=
  [("RUNFILES_MANIFEST_ONLY", "1"), ("RUNFILES_MANIFEST_FILE", "/m")]

/-- Filesystem holding only that manifest; in particular no repo-mapping
file exists anywhere. -/
def manifestNoMappingFs : Fs :=
  ⟨fun _ => false, fun _ => false,
   fun p => if p = "/m" then some "a/b c/d" else none, fun _ => none⟩

/-- Claim C1 (counterexample): in manifest-based mode with no repo-mapping
file in existence (the manifest has no entry for the reserved name),
construction does not succeed with an empty remapping table — the bootstrap
lookup of the reserved name panics, aborting create. -/
theorem c1_counterexample :
    Runfiles.create manifestNoMappingEnv manifestNoMappingFs (some "/b") "/" 1 "/exe"
      = CreateRes.panicked := by
  decide

/-- Claim C1 (amended): construction resolves the reserved name through the
bootstrap instance's own rlocation, and whenever that resolution returns a
path — always in directory mode, and in manifest mode exactly when the
manifest maps the reserved name — and the file at that path does not exist,
construction succeeds and returns a Runfiles value with an empty remapping
table. -/
theorem c1_amended_create_no_mapping_file (env : EnvMap) (fs : Fs) (argv0 : Option String)
    (cwd : String) (fuel : Nat) (exePath : String) (r : Runfiles) (p : String)
    (hboot : Runfiles.create_bootstrap env fs argv0 cwd fuel exePath = CreateRes.ok r)
    (hloc : r.rlocation "_repo_mapping" = RlocResult.ok p)
    (hmissing : fs.fileExists p = false) :
    Runfiles.create env fs argv0 cwd fuel exePath =
      CreateRes.ok ⟨r.mode, [], r.source_repository⟩ := by
  simp [Runfiles.create, hboot, hloc, hmissing]

/-- Environment and filesystem for the directory-mode witness of C1. -/
def dirModeEnv : EnvMap := [("RUNFILES_DIR", "/rf")]

/-- Directory-mode filesystem: the runfiles directory exists, no file does. -/
def dirModeFs : Fs :=
  ⟨fun d => d == "/rf", fun _ => false, fun _ => none, fun _ => none⟩

/-- Witness for the amended C1 in directory mode: the bootstrap resolves
the reserved name to a path under the runfiles root, that file does not
exist, and create succeeds with an empty remapping table. -/
theorem c1_amended_witness :
    Runfiles.create_bootstrap dirModeEnv dirModeFs (some "/b") "/" 1 "/exe"
      = CreateRes.ok ⟨Mode.directoryBased "/rf", [], ""⟩ ∧
    Runfiles.rlocation ⟨Mode.directoryBased "/rf", [], ""⟩ "_repo_mapping"
      = RlocResult.ok "/rf/_repo_mapping" ∧
    dirModeFs.fileExists "/rf/_repo_mapping" = false ∧
    Runfiles.create dirModeEnv dirModeFs (some "/b") "/" 1 "/exe"
      = CreateRes.ok ⟨Mode.directoryBased "/rf", [], ""⟩ :=
  ⟨by decide, by decide, by decide,
   c1_amended_create_no_mapping_file dirModeEnv dirModeFs (some "/b") "/" 1 "/exe"
     ⟨Mode.directoryBased "/rf", [], ""⟩ "/rf/_repo_mapping"
     (by decide) (by decide) (by decide)⟩
